import Mathlib

/-! The `field_printer` rules of sqlite_orm (dev/field_printer.h).

A shallow embedding of the `field_printer` family of function objects and of the
small part of the C++ standard library they call (`std::stringstream`,
`operator<<`, `std::hex`, `std::shared_ptr`, `std::unique_ptr`, `std::optional`).

Conventions of the embedding.

* A `std::string` is a Lean `String`; the C++ `char` whose byte value is `b`
  (`0 ≤ b < 256`) is the Lean character `Char.ofNat b`.
* The process-global locale is an input of every rule that builds a stream: a
  default-constructed `std::stringstream` copies it, and integer insertion groups
  the digits as its `numpunct<char>` facet prescribes.
* A rule returns `Option String`: `none` stands for undefined behaviour (the
  dereference of a null pointer or of an empty optional), `some s` for a normal
  return of `s`.
* A template argument `field_printer<T>` is passed as a function `T → Option String`.
-/

namespace sqlite_orm

/-! ## Scalar types -/

/-- The type `unsigned char`: eight bits. -/
structure unsigned_char where
  bits : Fin 256
deriving DecidableEq

/-- The type `signed char`: eight bits, read in two's complement. -/
structure signed_char where
  bits : Fin 256
deriving DecidableEq

/-- The type `char`: eight bits; whether it is read as signed is implementation-defined. -/
structure char where
  bits : Fin 256
deriving DecidableEq

/-- The type `int` (32 bits). -/
structure int where
  val : Int
  lo : -2147483648 ≤ val
  hi : val ≤ 2147483647
deriving DecidableEq

/-- The type `std::nullptr_t`, whose only value is `nullptr`. -/
inductive nullptr_t where
  | nullptr : nullptr_t
deriving DecidableEq

/-- The integer value of an eight-bit pattern read in two's complement. -/
def twos_complement (b : Fin 256) : Int :=
  if b.val < 128 then (b.val : Int) else (b.val : Int) - 256

/-- Unary plus on `unsigned char` (`+t`): integral promotion to `int`. -/
def unsigned_char.promote (t : unsigned_char) : int :=
  ⟨(t.bits.val : Int), by omega, by have := t.bits.isLt; omega⟩

/-- Unary plus on `signed char` (`+t`): integral promotion to `int`. -/
def signed_char.promote (t : signed_char) : int :=
  ⟨twos_complement t.bits,
    by unfold twos_complement; split <;> omega,
    by unfold twos_complement; have := t.bits.isLt; split <;> omega⟩

/-- Unary plus on `char` (`+t`): integral promotion to `int`; the value depends on
whether plain `char` is signed on the implementation. -/
def char.promote (char_is_signed : Bool) (t : char) : int :=
  if char_is_signed then
    ⟨twos_complement t.bits,
      by unfold twos_complement; split <;> omega,
      by unfold twos_complement; have := t.bits.isLt; split <;> omega⟩
  else
    ⟨(t.bits.val : Int), by omega, by have := t.bits.isLt; omega⟩

/-- The character a `char` stands for in a `std::string`. -/
def char.glyph (c : char) : Char := Char.ofNat c.bits.val

/-! ## `std::stringstream` -/

/-- The digit character of `d` in the classic locale: `0`-`9`, then lowercase `a`-`z`. -/
def digit_char (d : Nat) : Char :=
  if d < 10 then Char.ofNat (48 + d) else Char.ofNat (87 + d)

/-- The digit loop of `num_put`: `do { *--p = digit(v % base); v /= base; } while (v != 0)`.
The first argument bounds the number of iterations. -/
def int_to_char (base : Nat) : Nat → Nat → List Char → List Char
  | 0, _, acc => acc
  | fuel + 1, v, acc =>
    let acc := digit_char (v % base) :: acc
    let v := v / base
    if v = 0 then acc else int_to_char base fuel v acc

/-- The digits of `v` in `base`, most significant first. -/
def to_digits (base : Nat) (v : Nat) : List Char :=
  int_to_char base (v + 1) v []

/-- What a `std::locale` contributes to integer insertion: the `thousands_sep()` and
the `grouping()` of its `numpunct<char>` facet (the `num_put` and `ctype` facets are
those of the standard library). An entry of `grouping` is the number of digits of a
group, counted from the right, the last entry standing for all further groups; `0`
stands for an entry that is not positive, after which the digits are not grouped.
An `int` has at most eleven digits, so an entry of `CHAR_MAX` never splits them
either. -/
structure locale where
  thousands_sep : char
  grouping : List Nat
deriving DecidableEq

/-- The classic "C" locale: separator `,` and no grouping. -/
def locale.classic : locale := ⟨⟨44⟩, []⟩

/-- Digit grouping on the digits taken least significant first: `k` digits are still
to come in the current group of size `g`; a full group is followed by the separator
when digits remain, and the next group size is taken from `gs`. -/
def add_grouping_rev (sep : Char) : Nat → Nat → List Nat → List Char → List Char
  | _, _, _, [] => []
  | _, _, _, [d] => [d]
  | k, g, gs, d :: d2 :: ds =>
    if g = 0 then d :: d2 :: ds
    else if k ≤ 1 then
      d :: sep :: add_grouping_rev sep (gs.headD g) (gs.headD g) gs.tail (d2 :: ds)
    else d :: add_grouping_rev sep (k - 1) g gs (d2 :: ds)

/-- The grouping step of `num_put` on a run of digits, most significant first. -/
def add_grouping (loc : locale) (digits : List Char) : List Char :=
  match loc.grouping with
  | [] => digits
  | g :: gs => (add_grouping_rev loc.thousands_sep.glyph g g gs digits.reverse).reverse

/-- The `basefield` part of a stream's format flags. -/
inductive basefield where
  | dec
  | hex
  | oct
deriving DecidableEq

/-- The text `num_put` produces for an `int` in the locale `loc` under the default
flags other than `basefield` (no `showpos`, no `showbase`, no `uppercase`, width 0):
signed decimal, or the unsigned 32-bit value in hexadecimal or octal; the digits are
grouped, the sign is put in front of the grouped digits. -/
def num_put (loc : locale) (b : basefield) (n : int) : String :=
  match b with
  | .dec =>
    if n.val < 0 then String.mk ('-' :: add_grouping loc (to_digits 10 (-n.val).toNat))
    else String.mk (add_grouping loc (to_digits 10 n.val.toNat))
  | .hex => String.mk (add_grouping loc (to_digits 16 (n.val % 4294967296).toNat))
  | .oct => String.mk (add_grouping loc (to_digits 8 (n.val % 4294967296).toNat))

/-- A `std::stringstream`: the accumulated text, the `basefield` flag and the locale
the stream is imbued with. -/
structure stringstream where
  buf : String
  base : basefield
  loc : locale
deriving DecidableEq

namespace stringstream

/-- A default-constructed stream (`std::stringstream stream;`): empty buffer, decimal
base, and a copy of the global locale of the process at that moment. -/
def init (global_locale : locale) : stringstream := ⟨"", .dec, global_locale⟩

/-- The manipulator insertion `ss << std::hex`. -/
def hex (ss : stringstream) : stringstream := { ss with base := .hex }

/-- The insertion `ss << c` for a `char`: the character itself, whatever the base. -/
def put_char (ss : stringstream) (c : char) : stringstream :=
  { ss with buf := ss.buf.push c.glyph }

/-- The insertion `ss << n` for an `int`. -/
def put_int (ss : stringstream) (n : int) : stringstream :=
  { ss with buf := ss.buf ++ num_put ss.loc ss.base n }

/-- The member `str()`. -/
def str (ss : stringstream) : String := ss.buf

end stringstream

/-- A type with a stream insertion operator `stream << t`. -/
class ostream_insertable (T : Type) where
  put : stringstream → T → stringstream

instance : ostream_insertable int := ⟨stringstream.put_int⟩

/-! ## Ownership wrappers -/

/-- A `std::shared_ptr<T>`: null, or the address of a managed object and that object. -/
inductive shared_ptr (T : Type) where
  | null : shared_ptr T
  | mk (addr : Nat) (obj : T) : shared_ptr T

/-- A `std::unique_ptr<T>`: null, or the address of the owned object and that object. -/
inductive unique_ptr (T : Type) where
  | null : unique_ptr T
  | mk (addr : Nat) (obj : T) : unique_ptr T

/-- A `std::optional<T>`: empty, or holding a value. -/
inductive optional (T : Type) where
  | nullopt : optional T
  | holds (value : T) : optional T

/-- The conversion `explicit operator bool` of `std::shared_ptr`. -/
def shared_ptr.to_bool {T : Type} : shared_ptr T → Bool
  | .null => false
  | .mk _ _ => true

/-- The dereference `*t` of a `std::shared_ptr`; undefined (`none`) on a null pointer. -/
def shared_ptr.deref {T : Type} : shared_ptr T → Option T
  | .null => none
  | .mk _ obj => some obj

/-- The conversion `explicit operator bool` of `std::unique_ptr`. -/
def unique_ptr.to_bool {T : Type} : unique_ptr T → Bool
  | .null => false
  | .mk _ _ => true

/-- The dereference `*t` of a `std::unique_ptr`; undefined (`none`) on a null pointer. -/
def unique_ptr.deref {T : Type} : unique_ptr T → Option T
  | .null => none
  | .mk _ obj => some obj

/-- The member `has_value()` of `std::optional`. -/
def optional.has_value {T : Type} : optional T → Bool
  | .nullopt => false
  | .holds _ => true

/-- The dereference `*t` of a `std::optional`; undefined (`none`) on an empty optional. -/
def optional.deref {T : Type} : optional T → Option T
  | .nullopt => none
  | .holds v => some v

/-! ## The rules of `field_printer`

A rule that declares a `std::stringstream` takes the global locale of the process at
the time of the call as its first argument. -/

/-- The primary template `field_printer<T>`. -/
def field_printer {T : Type} [ostream_insertable T] (global_locale : locale) (t : T) :
    Option String :=
  let stream := stringstream.init global_locale
  let stream := ostream_insertable.put stream t
  some stream.str

/-- The specialization `field_printer<unsigned char>`. -/
def field_printer_unsigned_char (global_locale : locale) (t : unsigned_char) :
    Option String :=
  let stream := stringstream.init global_locale
  let stream := stream.put_int t.promote
  some stream.str

/-- The specialization `field_printer<signed char>`. -/
def field_printer_signed_char (global_locale : locale) (t : signed_char) :
    Option String :=
  let stream := stringstream.init global_locale
  let stream := stream.put_int t.promote
  some stream.str

/-- The specialization `field_printer<char>`. -/
def field_printer_char (global_locale : locale) (char_is_signed : Bool) (t : char) :
    Option String :=
  let stream := stringstream.init global_locale
  let stream := stream.put_int (t.promote char_is_signed)
  some stream.str

/-- The specialization `field_printer<std::string>`. -/
def field_printer_string (t : String) : Option String :=
  some t

/-- The specialization `field_printer<std::vector<char>>`. -/
def field_printer_vector_char (global_locale : locale) (t : List char) : Option String :=
  let ss := stringstream.init global_locale
  let ss := ss.hex
  let ss := t.foldl (fun ss c => ss.put_char c) ss
  some ss.str

/-- The specialization `field_printer<std::nullptr_t>`. -/
def field_printer_nullptr_t (_ : nullptr_t) : Option String :=
  some "null"

/-- The partial specialization `field_printer<std::shared_ptr<T>>`. -/
def field_printer_shared_ptr {T : Type} (field_printer_T : T → Option String)
    (t : shared_ptr T) : Option String :=
  if t.to_bool then
    t.deref.bind field_printer_T
  else
    field_printer_nullptr_t nullptr_t.nullptr

/-- The partial specialization `field_printer<std::unique_ptr<T>>`. -/
def field_printer_unique_ptr {T : Type} (field_printer_T : T → Option String)
    (t : unique_ptr T) : Option String :=
  if t.to_bool then
    t.deref.bind field_printer_T
  else
    field_printer_nullptr_t nullptr_t.nullptr

/-- The partial specialization `field_printer<std::optional<T>>`. -/
def field_printer_optional {T : Type} (field_printer_T : T → Option String)
    (t : optional T) : Option String :=
  if t.has_value then
    t.deref.bind field_printer_T
  else
    field_printer_nullptr_t nullptr_t.nullptr

/-! ## Static resolution over nested wrapper types -/

/-- One layer of ownership wrapper around a type. -/
inductive wrapper where
  | shared
  | unique
  | opt
deriving DecidableEq

/-- The type obtained by wrapping `T` in the given layers, outermost first:
`nested int [shared, opt]` is `std::shared_ptr<std::optional<int>>`. -/
def nested (T : Type) : List wrapper → Type
  | [] => T
  | .shared :: ls => shared_ptr (nested T ls)
  | .unique :: ls => unique_ptr (nested T ls)
  | .opt :: ls => optional (nested T ls)

/-- The rule the compiler instantiates for a nested wrapper type over `T`: each
layer selects the partial specialization of its wrapper, instantiated at the rule
of the type below. -/
def field_printer_nested {T : Type} (field_printer_T : T → Option String) :
    (ls : List wrapper) → nested T ls → Option String
  | [], t => field_printer_T t
  | .shared :: ls, t => field_printer_shared_ptr (field_printer_nested field_printer_T ls) t
  | .unique :: ls, t => field_printer_unique_ptr (field_printer_nested field_printer_T ls) t
  | .opt :: ls, t => field_printer_optional (field_printer_nested field_printer_T ls) t

/-- The types with a rule of their own in `field_printer.h`, and `int` for the
scalar types left to the primary template. -/
inductive base_type where
  | unsigned_char
  | signed_char
  | char
  | string
  | vector_char
  | nullptr_t
  | int
deriving DecidableEq

/-- The values of a base type. -/
def base_type.value : base_type → Type
  | .unsigned_char => sqlite_orm.unsigned_char
  | .signed_char => sqlite_orm.signed_char
  | .char => sqlite_orm.char
  | .string => String
  | .vector_char => List sqlite_orm.char
  | .nullptr_t => sqlite_orm.nullptr_t
  | .int => sqlite_orm.int

/-- The rule selected for a base type. -/
def field_printer_base (global_locale : locale) (char_is_signed : Bool) :
    (b : base_type) → b.value → Option String
  | .unsigned_char, t => field_printer_unsigned_char global_locale t
  | .signed_char, t => field_printer_signed_char global_locale t
  | .char, t => field_printer_char global_locale char_is_signed t
  | .string, t => field_printer_string t
  | .vector_char, t => field_printer_vector_char global_locale t
  | .nullptr_t, t => field_printer_nullptr_t t
  | .int, (t : sqlite_orm.int) => field_printer global_locale t

/-! ## Vocabulary of the specification -/

/-- An ASCII decimal digit. -/
def is_decimal_digit (c : Char) : Bool :=
  decide (48 ≤ c.toNat) && decide (c.toNat ≤ 57)

/-- A lowercase hexadecimal digit: `0`-`9` or `a`-`f`. -/
def is_lower_hex_digit (c : Char) : Bool :=
  is_decimal_digit c || (decide (97 ≤ c.toNat) && decide (c.toNat ≤ 102))

/-- The rendering the specification words for a byte sequence: the hexadecimal
numeral of the value (0 to 255) of each byte, lowercase, one after the other. -/
def hex_numerals (t : List char) : String :=
  String.mk (t.flatMap (fun c => to_digits 16 c.bits.val))

/-- The value below all the layers of a nested wrapper, when every layer is present. -/
def innermost {T : Type} : (ls : List wrapper) → nested T ls → Option T
  | [], t => some t
  | .shared :: ls, t => (shared_ptr.deref t).bind (innermost ls)
  | .unique :: ls, t => (unique_ptr.deref t).bind (innermost ls)
  | .opt :: ls, t => (optional.deref t).bind (innermost ls)

/-- C2: a non-null shared or unique pointer to `v` renders as `v` does under the rule
of the pointee type, and a null pointer of either kind renders as `null`. -/
theorem field_printer_pointer_delegates {T : Type} (field_printer_T : T → Option String)
    (addr : Nat) (v : T) :
    field_printer_shared_ptr field_printer_T (shared_ptr.mk addr v) = field_printer_T v ∧
      field_printer_unique_ptr field_printer_T (unique_ptr.mk addr v) = field_printer_T v ∧
      field_printer_shared_ptr field_printer_T shared_ptr.null = some "null" ∧
      field_printer_unique_ptr field_printer_T unique_ptr.null = some "null" :=
  ⟨rfl, rfl, rfl, rfl⟩

/-- C3: an optional holding `v` renders as `v` does under the rule of the held type,
and an empty optional renders as `null`. -/
theorem field_printer_optional_delegates {T : Type} (field_printer_T : T → Option String)
    (v : T) :
    field_printer_optional field_printer_T (optional.holds v) = field_printer_T v ∧
      field_printer_optional field_printer_T optional.nullopt = some "null" :=
  ⟨rfl, rfl⟩

/-- C5: the rule of `std::nullptr_t` returns the four-character text `null`, and the
three wrapper rules return, on an absent value, what that rule returns on `nullptr`. -/
theorem field_printer_absence_token :
    (∀ t : nullptr_t, field_printer_nullptr_t t = some "null") ∧
      "null".length = 4 ∧
      (∀ (T : Type) (field_printer_T : T → Option String),
        field_printer_shared_ptr field_printer_T shared_ptr.null
            = field_printer_nullptr_t nullptr_t.nullptr ∧
          field_printer_unique_ptr field_printer_T unique_ptr.null
            = field_printer_nullptr_t nullptr_t.nullptr ∧
          field_printer_optional field_printer_T optional.nullopt
            = field_printer_nullptr_t nullptr_t.nullptr) :=
  ⟨fun _ => rfl, by decide, fun _ _ => ⟨rfl, rfl, rfl⟩⟩

/-- C6: the rule of `std::string` returns its argument unchanged, whatever the
characters in it; `hello` renders as `hello`, the empty text as the empty text, and
quotes, backslashes and blanks come back as they went in. -/
theorem field_printer_string_identity :
    (∀ s : String, field_printer_string s = some s) ∧
      field_printer_string "hello" = some "hello" ∧
      field_printer_string "" = some "" ∧
      field_printer_string "a \"b\" \\ c\t" = some "a \"b\" \\ c\t" :=
  ⟨fun _ => rfl, rfl, rfl, rfl⟩


/-! ## Decimal numerals -/

theorem char_ofNat_toNat (b : Nat) (hb : b < 256) : (Char.ofNat b).toNat = b := by
  have hv : b.isValidChar := Or.inl (by omega)
  simp only [Char.ofNat, hv, dite_true, Char.ofNatAux, Char.toNat]
  rfl

theorem add_grouping_singleton (loc : locale) (d : Char) : add_grouping loc [d] = [d] := by
  unfold add_grouping
  cases loc.grouping with
  | nil => rfl
  | cons g gs => rfl

theorem field_printer_int_eq (loc : locale) (n : int) :
    field_printer loc n = some (num_put loc .dec n) := by
  simp [field_printer, ostream_insertable.put, stringstream.put_int, stringstream.init,
    stringstream.str]

theorem foldl_put_char (t : List char) :
    ∀ ss : stringstream,
      t.foldl (fun ss c => ss.put_char c) ss
        = ⟨String.mk (ss.buf.data ++ t.map char.glyph), ss.base, ss.loc⟩ := by
  induction t with
  | nil => intro ss; simp
  | cons c t ih =>
    intro ss
    rw [List.foldl_cons, ih (ss.put_char c)]
    simp [stringstream.put_char]

theorem field_printer_vector_char_eq (loc : locale) (t : List char) :
    field_printer_vector_char loc t = some (String.mk (t.map char.glyph)) := by
  simp [field_printer_vector_char, foldl_put_char, stringstream.init, stringstream.hex,
    stringstream.str]

theorem glyph_injective (a b : char) (h : a.glyph = b.glyph) : a = b := by
  have h1 := char_ofNat_toNat a.bits.val a.bits.isLt
  have h2 := char_ofNat_toNat b.bits.val b.bits.isLt
  unfold char.glyph at h
  rw [h, h2] at h1
  cases a with
  | mk x =>
    cases b with
    | mk y =>
      have : x = y := Fin.ext h1.symm
      rw [this]

theorem map_glyph_injective (a : List char) :
    ∀ b : List char, a.map char.glyph = b.map char.glyph → a = b := by
  induction a with
  | nil =>
    intro b h
    cases b with
    | nil => rfl
    | cons y ys => simp at h
  | cons x xs ih =>
    intro b h
    cases b with
    | nil => simp at h
    | cons y ys =>
      simp only [List.map_cons, List.cons.injEq] at h
      rw [glyph_injective x y h.1, ih ys h.2]

/-- C1 (the code departs from the claim): on the bytes 10, 255, 0 and on the byte 65
the byte-sequence rule returns, under every global locale, the bytes themselves as
characters (`A` for 65), none of which is a hexadecimal digit on the first input,
where the hexadecimal numerals would read `aff0`, and `41` on the second. -/
theorem field_printer_vector_char_glyphs :
    (∀ loc : locale, field_printer_vector_char loc [⟨10⟩, ⟨255⟩, ⟨0⟩]
        = some (String.mk [Char.ofNat 10, Char.ofNat 255, Char.ofNat 0])) ∧
      [Char.ofNat 10, Char.ofNat 255, Char.ofNat 0].all (fun c => !is_lower_hex_digit c) = true ∧
      hex_numerals [⟨10⟩, ⟨255⟩, ⟨0⟩] = "aff0" ∧
      (∀ loc : locale, field_printer_vector_char loc [⟨65⟩] = some "A") ∧
      hex_numerals [⟨65⟩] = "41" :=
  ⟨fun _ => rfl, by decide, by decide, fun _ => rfl, by decide⟩

/-- C11 (the code departs from the claim): under every global locale a one-element
byte sequence renders as the one character that is the byte itself. The byte 5 gives
the control character of code 5, which is no hexadecimal digit, where the hexadecimal
numeral is `5`; the bytes 16 and 255 give one character each, where the hexadecimal
numerals `10` and `ff` have two. -/
theorem field_printer_vector_char_single :
    (∀ (loc : locale) (c : char),
        field_printer_vector_char loc [c] = some (String.singleton c.glyph)) ∧
      (∀ loc : locale,
        field_printer_vector_char loc [⟨5⟩] = some (String.singleton (Char.ofNat 5))) ∧
      is_lower_hex_digit (Char.ofNat 5) = false ∧
      hex_numerals [⟨5⟩] = "5" ∧
      (∀ loc : locale,
        field_printer_vector_char loc [⟨16⟩] = some (String.singleton (Char.ofNat 16))) ∧
      hex_numerals [⟨16⟩] = "10" ∧
      (∀ loc : locale,
        field_printer_vector_char loc [⟨255⟩] = some (String.singleton (Char.ofNat 255))) ∧
      (String.singleton (Char.ofNat 255)).length = 1 ∧
      hex_numerals [⟨255⟩] = "ff" :=
  ⟨fun _ _ => rfl, fun _ => rfl, by decide, by decide, fun _ => rfl, by decide, fun _ => rfl,
    by decide, by decide⟩

/-- C12: the byte-sequence rule is injective, whatever the global locale of either
call, and every byte contributes exactly one character, so the length of the result
is one times the length of the input. -/
theorem field_printer_vector_char_lossless :
    (∀ (loc loc2 : locale) (a b : List char),
        field_printer_vector_char loc a = field_printer_vector_char loc2 b → a = b) ∧
      (∀ (loc : locale) (t : List char), ∃ s : String,
        field_printer_vector_char loc t = some s ∧ s.length = 1 * t.length) ∧
      (∀ (loc : locale) (c : char), ∃ s : String,
        field_printer_vector_char loc [c] = some s ∧ s.length = 1) := by
  refine ⟨?_, ?_, ?_⟩
  · intro loc loc2 a b h
    rw [field_printer_vector_char_eq, field_printer_vector_char_eq] at h
    have hd : a.map char.glyph = b.map char.glyph := by
      have := Option.some.inj h
      exact congrArg String.data this
    exact map_glyph_injective a b hd
  · intro loc t
    refine ⟨_, field_printer_vector_char_eq loc t, ?_⟩
    simp [String.length]
  · intro loc c
    exact ⟨_, rfl, rfl⟩

/-- Witness of C12: the sequences `[65, 0]` and `[65, 0]` render alike and are equal. -/
theorem field_printer_vector_char_lossless_witness :
    field_printer_vector_char locale.classic [⟨65⟩, ⟨0⟩]
        = field_printer_vector_char locale.classic [⟨65⟩, ⟨0⟩] ∧
      ([⟨65⟩, ⟨0⟩] : List char) = [⟨65⟩, ⟨0⟩] :=
  ⟨rfl, field_printer_vector_char_lossless.1 locale.classic locale.classic
    [⟨65⟩, ⟨0⟩] [⟨65⟩, ⟨0⟩] rfl⟩

/-- C13: under every global locale the empty byte sequence renders as the empty text,
the rendering of `a` followed by `b` is the rendering of `a` followed by the rendering
of `b`, and a sequence renders as the renderings of its bytes, each taken alone, one
after the other. -/
theorem field_printer_vector_char_append :
    (∀ loc : locale, field_printer_vector_char loc [] = some "") ∧
      (∀ (loc : locale) (a b : List char), ∃ sa sb : String,
        field_printer_vector_char loc a = some sa ∧
        field_printer_vector_char loc b = some sb ∧
        field_printer_vector_char loc (a ++ b) = some (sa ++ sb)) ∧
      (∀ (loc : locale) (c : char) (t : List char), ∃ sc st : String,
        field_printer_vector_char loc [c] = some sc ∧
        field_printer_vector_char loc t = some st ∧
        field_printer_vector_char loc (c :: t) = some (sc ++ st)) := by
  refine ⟨fun _ => rfl, ?_, ?_⟩
  · intro loc a b
    refine ⟨_, _, field_printer_vector_char_eq loc a, field_printer_vector_char_eq loc b, ?_⟩
    rw [field_printer_vector_char_eq, List.map_append]
    rfl
  · intro loc c t
    refine ⟨_, _, field_printer_vector_char_eq loc [c], field_printer_vector_char_eq loc t, ?_⟩
    rw [field_printer_vector_char_eq]
    rfl

/-- C14: the byte-sequence rule inserts each element as a character, and `std::hex`
changes nothing of a character insertion: under every global locale the result is
the text whose characters are the bytes of the input in order, as long as the input;
the byte 65 renders as `A`, not `41`. -/
theorem field_printer_vector_char_bytes :
    (∀ (loc : locale) (t : List char),
        field_printer_vector_char loc t = some (String.mk (t.map char.glyph))) ∧
      (∀ (loc : locale) (t : List char), ∃ s : String,
        field_printer_vector_char loc t = some s ∧ s.length = t.length) ∧
      (∀ (ss : stringstream) (c : char), (ss.hex.put_char c).buf = (ss.put_char c).buf) ∧
      (∀ c : char, c.glyph.toNat = c.bits.val) ∧
      (∀ loc : locale, field_printer_vector_char loc [⟨65⟩] = some "A") ∧
      (∀ loc : locale, field_printer_vector_char loc [⟨65⟩] ≠ some "41") := by
  refine ⟨field_printer_vector_char_eq, ?_, fun _ _ => rfl, ?_, fun _ => rfl, ?_⟩
  · intro loc t
    refine ⟨_, field_printer_vector_char_eq loc t, ?_⟩
    simp [String.length]
  · intro c
    exact char_ofNat_toNat c.bits.val c.bits.isLt
  · intro loc h
    have h2 : field_printer_vector_char loc [⟨65⟩] = some "A" := rfl
    rw [h2] at h
    exact absurd h (by decide)

/-! ## Nested wrappers -/

theorem field_printer_base_some (loc : locale) (char_is_signed : Bool) (b : base_type)
    (t : b.value) : ∃ s : String, field_printer_base loc char_is_signed b t = some s := by
  cases b <;> exact ⟨_, rfl⟩

theorem field_printer_nested_some {T : Type} (field_printer_T : T → Option String)
    (hT : ∀ v : T, ∃ s : String, field_printer_T v = some s) :
    ∀ (ls : List wrapper) (t : nested T ls),
      ∃ s : String, field_printer_nested field_printer_T ls t = some s := by
  intro ls
  induction ls with
  | nil => intro t; exact hT t
  | cons l ls ih =>
    intro t
    cases l with
    | shared =>
      cases t with
      | null => exact ⟨"null", rfl⟩
      | mk a v => exact ih v
    | unique =>
      cases t with
      | null => exact ⟨"null", rfl⟩
      | mk a v => exact ih v
    | opt =>
      cases t with
      | nullopt => exact ⟨"null", rfl⟩
      | holds v => exact ih v

theorem field_printer_seven (loc : locale) :
    field_printer loc (⟨7, by decide, by decide⟩ : int) = some "7" := by
  rw [field_printer_int_eq]
  have hd : to_digits 10 7 = ['7'] := by decide
  simp [num_put, hd, add_grouping_singleton]

/-- C7: under every global locale a `shared_ptr<optional<int>>` holding `n` renders as
`n` does (7 as `7`), one pointing to an empty optional renders as `null`, and a null
one renders as `null`; for every nesting of shared pointers, unique pointers and
optionals over a type `T` the instantiated rule returns what the rule of `T` returns
on the innermost value when every layer is present, and `null` when some layer is
absent. -/
theorem field_printer_nested_resolves :
    (∀ (loc : locale) (n : int) (addr : Nat),
        field_printer_nested (field_printer loc : int → Option String) [.shared, .opt]
            (shared_ptr.mk addr (optional.holds n))
          = field_printer loc n) ∧
      (∀ loc : locale,
        field_printer_nested (field_printer loc : int → Option String) [.shared, .opt]
            (shared_ptr.mk 1 (optional.holds ⟨7, by decide, by decide⟩))
          = some "7") ∧
      (∀ (loc : locale) (addr : Nat),
        field_printer_nested (field_printer loc : int → Option String) [.shared, .opt]
            (shared_ptr.mk addr optional.nullopt)
          = some "null") ∧
      (∀ loc : locale,
        field_printer_nested (field_printer loc : int → Option String) [.shared, .opt]
            shared_ptr.null
          = some "null") ∧
      (∀ (T : Type) (field_printer_T : T → Option String),
        field_printer_nested field_printer_T [.shared, .opt]
          = field_printer_shared_ptr (field_printer_optional field_printer_T)) ∧
      (∀ (T : Type) (field_printer_T : T → Option String) (ls : List wrapper)
          (t : nested T ls),
        field_printer_nested field_printer_T ls t
          = match innermost ls t with
            | some v => field_printer_T v
            | none => some "null") := by
  refine ⟨fun _ _ _ => rfl, fun loc => field_printer_seven loc, fun _ _ => rfl,
    fun _ => rfl, fun _ _ => rfl, ?_⟩
  intro T fp ls
  induction ls with
  | nil => intro t; rfl
  | cons l ls ih =>
    intro t
    cases l with
    | shared =>
      cases t with
      | null => rfl
      | mk a v => exact ih v
    | unique =>
      cases t with
      | null => rfl
      | mk a v => exact ih v
    | opt =>
      cases t with
      | nullopt => rfl
      | holds v => exact ih v

/-- C8: under every global locale, for every supported type (a base type under any
nesting of wrappers) and every value of it, null pointers and empty optionals
included, the rule returns a text: the dereference of an absent value, the only
undefined step of the model, is never reached. The empty string and the empty byte
sequence both render as the empty text. -/
theorem field_printer_total :
    (∀ (loc : locale) (char_is_signed : Bool) (b : base_type) (ls : List wrapper)
        (t : nested b.value ls),
        ∃ s : String,
          field_printer_nested (field_printer_base loc char_is_signed b) ls t = some s) ∧
      (∀ (T : Type) (field_printer_T : T → Option String),
        field_printer_shared_ptr field_printer_T shared_ptr.null ≠ none ∧
          field_printer_unique_ptr field_printer_T unique_ptr.null ≠ none ∧
          field_printer_optional field_printer_T optional.nullopt ≠ none) ∧
      (shared_ptr.null : shared_ptr String).deref = none ∧
      (unique_ptr.null : unique_ptr String).deref = none ∧
      (optional.nullopt : optional String).deref = none ∧
      field_printer_string "" = some "" ∧
      (∀ loc : locale, field_printer_vector_char loc [] = some "") := by
  refine ⟨?_, ?_, rfl, rfl, rfl, rfl, fun _ => rfl⟩
  · intro loc cs b ls t
    exact field_printer_nested_some _ (field_printer_base_some loc cs b) ls t
  · intro T fp
    refine ⟨?_, ?_, ?_⟩ <;> exact Option.some_ne_none _

/-- C15: an optional, a shared pointer and a unique pointer holding the text `null`
render as `null`, as the empty optional and the null pointers do, although the two
inputs differ: none of the three wrapper rules over `std::string` is injective. -/
theorem field_printer_absence_collides :
    field_printer_optional field_printer_string (optional.holds "null") = some "null" ∧
      field_printer_optional field_printer_string optional.nullopt = some "null" ∧
      optional.holds "null" ≠ (optional.nullopt : optional String) ∧
      field_printer_shared_ptr field_printer_string (shared_ptr.mk 1 "null") = some "null" ∧
      field_printer_shared_ptr field_printer_string shared_ptr.null = some "null" ∧
      shared_ptr.mk 1 "null" ≠ (shared_ptr.null : shared_ptr String) ∧
      field_printer_unique_ptr field_printer_string (unique_ptr.mk 1 "null") = some "null" ∧
      field_printer_unique_ptr field_printer_string unique_ptr.null = some "null" ∧
      unique_ptr.mk 1 "null" ≠ (unique_ptr.null : unique_ptr String) ∧
      ¬ Function.Injective (field_printer_optional field_printer_string) ∧
      ¬ Function.Injective (field_printer_shared_ptr field_printer_string) ∧
      ¬ Function.Injective (field_printer_unique_ptr field_printer_string) := by
  have ho : optional.holds "null" ≠ (optional.nullopt : optional String) := by
    intro h; cases h
  have hs : shared_ptr.mk 1 "null" ≠ (shared_ptr.null : shared_ptr String) := by
    intro h; cases h
  have hu : unique_ptr.mk 1 "null" ≠ (unique_ptr.null : unique_ptr String) := by
    intro h; cases h
  refine ⟨rfl, rfl, ho, rfl, rfl, hs, rfl, rfl, hu, ?_, ?_, ?_⟩
  · intro hinj
    exact ho (hinj rfl)
  · intro hinj
    exact hs (hinj rfl)
  · intro hinj
    exact hu (hinj rfl)

/-! ## Injectivity and size of the narrow rules -/

end sqlite_orm
